import Mathlib

/-!
Verification development for the chlorophyll syntax-highlighting engine
(`codeview.py`, `schemeparser.py`).

Modelling conventions:
* A buffer position is a flat character offset (`Nat`) into the buffer;
  Tk index arithmetic (`"L.C"`, `+ k indices`, `+ k chars`) advances this
  offset by the corresponding character count.
* A Tk text tag is a set of tagged character cells; we model the overlay
  state as a list of `(tag name, cell offset)` pairs.  `tag_add name a b`
  tags every cell in `[a, b)`; `tag_remove name a b` untags them.
* The pygments lexer is an external collaborator: a highlight pass receives
  its output as a list of `(kind, text)` pairs, where `kind` is the
  `str(token)` rendering used by the source.
-/

namespace Chlorophyll

/-- The tag-overlay state: one entry per tagged character cell. -/
abbrev TagState := List (String × Nat)

/-- Model of Tk `tag_add name a b`: tag every cell of the range `[a, b)`. -/
def tagAdd (name : String) (a b : Nat) (st : TagState) : TagState :=
  st ++ (List.range (b - a)).map (fun i => (name, a + i))

/-- Model of Tk `tag_remove name a b`: untag every cell of `[a, b)` carrying
`name`. -/
def tagRemoveSpan (name : String) (a b : Nat) (st : TagState) : TagState :=
  st.filter (fun c => !(c.1 == name && decide (a ≤ c.2) && decide (c.2 < b)))

/-- `tag.startswith("Token")` — membership test for the highlight tag
family (`codeview.py` lines 221, 236, 252), computed on the character
list: the first five characters are `Token`. -/
def isTokenTag (t : String) : Bool := t.data.take 5 == "Token".data

/-- The removal phase shared by `highlight_line` / `highlight_area`
(`codeview.py` lines 220-222 and 251-253): walk the widget's tag names and
strip every `Token`-prefixed tag from the span `[a, b)`. -/
def removeTokenTags (tagNames : List String) (a b : Nat) (st : TagState) : TagState :=
  tagNames.foldl (fun acc t => if isTokenTag t then tagRemoveSpan t a b acc else acc) st

/-- The plain-text / whitespace sentinel kinds that are advanced over but
never tagged (`codeview.py` lines 230, 246, 261). -/
def isSentinel (kind : String) : Bool :=
  kind == "Token.Text.Whitespace" || kind == "Token.Text"

/-- The token-walking loop of a highlight pass (`codeview.py` lines
225-232, 243-248, 258-263): the cursor starts at `cursor`, each token
advances it by the token text's length, and non-sentinel tokens are tagged
over the cells between the cursor before and the cursor after. -/
def applyTokens (cursor : Nat) (toks : List (String × String)) (st : TagState) : TagState :=
  match toks with
  | [] => st
  | (kind, text) :: rest =>
      applyTokens (cursor + text.length) rest
        (if isSentinel kind then st else tagAdd kind cursor (cursor + text.length) st)

/-- One complete highlight pass over a region: remove the highlight-family
tags from the span `[a, b)`, then re-emit tags walking the token stream
from the starting cursor. -/
def highlightPass (tagNames : List String) (a b cursor : Nat)
    (toks : List (String × String)) (st : TagState) : TagState :=
  applyTokens cursor toks (removeTokenTags tagNames a b st)

/-- `highlight_line` (`codeview.py` lines 218-232): the span is the single
line `[lineStart, lineStart + lineLen)` and the cursor starts at the
region's start (`start_col = 0`, i.e. offset `lineStart`). -/
def highlightLine (tagNames : List String) (lineStart lineLen : Nat)
    (toks : List (String × String)) (st : TagState) : TagState :=
  highlightPass tagNames lineStart (lineStart + lineLen) lineStart toks st

/-- `highlight_area` (`codeview.py` lines 250-263): the span is
`[spanStart, spanEnd)` (offsets of `start_line.0` and `end_line.end`), and
the cursor starts at `adjStart`, the offset of
`start_line.0 + line_offset lines` computed from the leading blank lines
of the extracted text. -/
def highlightArea (tagNames : List String) (spanStart spanEnd adjStart : Nat)
    (toks : List (String × String)) (st : TagState) : TagState :=
  highlightPass tagNames spanStart spanEnd adjStart toks st

/-- Specification-side description of the token walk: each token paired
with the half-open range `[cursor-before, cursor-after)` obtained by
advancing the cursor by the token text's length. -/
def tokenSpans (cursor : Nat) (toks : List (String × String)) :
    List (String × Nat × Nat) :=
  match toks with
  | [] => []
  | (kind, text) :: rest =>
      (kind, cursor, cursor + text.length) :: tokenSpans (cursor + text.length) rest

/-- The tagged cells a `(kind, from, to)` span contributes. -/
def spanCells (s : String × Nat × Nat) : List (String × Nat) :=
  (List.range (s.2.2 - s.2.1)).map (fun i => (s.1, s.2.1 + i))

/-- The cells applied by a token walk starting at `cursor`: every
non-sentinel token's cells over exactly its `[before, after)` range. -/
def walkCells (cursor : Nat) (toks : List (String × String)) : List (String × Nat) :=
  ((tokenSpans cursor toks).filter (fun s => !isSentinel s.1)).flatMap spanCells

theorem applyTokens_eq_append (toks : List (String × String)) :
    ∀ (cursor : Nat) (st : TagState),
      applyTokens cursor toks st = st ++ walkCells cursor toks := by
  induction toks with
  | nil => intro cursor st; simp [applyTokens, walkCells, tokenSpans]
  | cons head rest ih =>
      intro cursor st
      obtain ⟨kind, text⟩ := head
      by_cases h : isSentinel kind = true
      · simp [applyTokens, h, ih, walkCells, tokenSpans, List.filter_cons]
      · simp only [Bool.not_eq_true] at h
        simp [applyTokens, h, ih, walkCells, tokenSpans, List.filter_cons,
          tagAdd, spanCells, List.append_assoc]

/-- Total character length of a token stream's texts. -/
def totalLen (toks : List (String × String)) : Nat :=
  (toks.map (fun p => p.2.length)).sum

theorem mem_tagRemoveSpan (name : String) (a b : Nat) (st : TagState) (c : String × Nat) :
    c ∈ tagRemoveSpan name a b st ↔ c ∈ st ∧ ¬(c.1 = name ∧ a ≤ c.2 ∧ c.2 < b) := by
  simp [tagRemoveSpan, List.mem_filter, -Bool.not_and, and_assoc]

theorem mem_removeTokenTags (tagNames : List String) (a b : Nat) :
    ∀ (st : TagState) (c : String × Nat),
      c ∈ removeTokenTags tagNames a b st ↔
        c ∈ st ∧ ¬(c.1 ∈ tagNames ∧ isTokenTag c.1 = true ∧ a ≤ c.2 ∧ c.2 < b) := by
  induction tagNames with
  | nil => intro st c; simp [removeTokenTags]
  | cons t ts ih =>
      intro st c
      have step : removeTokenTags (t :: ts) a b st =
          removeTokenTags ts a b (if isTokenTag t then tagRemoveSpan t a b st else st) := by
        simp [removeTokenTags]
      rw [step, ih]
      by_cases htok : isTokenTag t = true
      · rw [if_pos htok, mem_tagRemoveSpan]
        constructor
        · rintro ⟨⟨hst, hnot1⟩, hnot2⟩
          refine ⟨hst, ?_⟩
          rintro ⟨hmem, hctok, hge, hlt⟩
          rcases List.mem_cons.mp hmem with heq | hmem'
          · exact hnot1 ⟨heq, hge, hlt⟩
          · exact hnot2 ⟨hmem', hctok, hge, hlt⟩
        · rintro ⟨hst, hnot⟩
          refine ⟨⟨hst, ?_⟩, ?_⟩
          · rintro ⟨heq, hge, hlt⟩
            exact hnot ⟨List.mem_cons.mpr (Or.inl heq), heq ▸ htok, hge, hlt⟩
          · rintro ⟨hmem', hctok, hge, hlt⟩
            exact hnot ⟨List.mem_cons_of_mem _ hmem', hctok, hge, hlt⟩
      · rw [if_neg htok]
        constructor
        · rintro ⟨hst, hnot⟩
          refine ⟨hst, ?_⟩
          rintro ⟨hmem, hctok, hge, hlt⟩
          rcases List.mem_cons.mp hmem with heq | hmem'
          · exact htok (heq ▸ hctok)
          · exact hnot ⟨hmem', hctok, hge, hlt⟩
        · rintro ⟨hst, hnot⟩
          refine ⟨hst, ?_⟩
          rintro ⟨hmem', hctok, hge, hlt⟩
          exact hnot ⟨List.mem_cons_of_mem _ hmem', hctok, hge, hlt⟩

theorem mem_walkCells (toks : List (String × String)) :
    ∀ (cursor : Nat) (c : String × Nat), c ∈ walkCells cursor toks →
      (∃ p ∈ toks, c.1 = p.1) ∧ cursor ≤ c.2 ∧ c.2 < cursor + totalLen toks := by
  induction toks with
  | nil => intro cursor c h; simp [walkCells, tokenSpans] at h
  | cons head rest ih =>
      intro cursor c h
      obtain ⟨kind, text⟩ := head
      by_cases hs : isSentinel kind = true
      · have h' : c ∈ walkCells (cursor + text.length) rest := by
          simpa [walkCells, tokenSpans, List.filter_cons, hs] using h
        obtain ⟨⟨p, hp, hcp⟩, hge, hlt⟩ := ih (cursor + text.length) c h'
        refine ⟨⟨p, List.mem_cons_of_mem _ hp, hcp⟩, le_trans (Nat.le_add_right _ _) hge, ?_⟩
        simpa [totalLen, Nat.add_assoc] using hlt
      · simp only [Bool.not_eq_true] at hs
        have h' : c ∈ spanCells (kind, cursor, cursor + text.length) ∨
            c ∈ walkCells (cursor + text.length) rest := by
          simpa [walkCells, tokenSpans, List.filter_cons, hs] using h
        rcases h' with hc | hc
        · simp only [spanCells, List.mem_map, List.mem_range] at hc
          obtain ⟨i, hi, hci⟩ := hc
          subst hci
          refine ⟨⟨(kind, text), List.mem_cons_self _ _, rfl⟩, Nat.le_add_right _ _, ?_⟩
          simp only [totalLen, List.map_cons, List.sum_cons]
          omega
        · obtain ⟨⟨p, hp, hcp⟩, hge, hlt⟩ := ih (cursor + text.length) c hc
          refine ⟨⟨p, List.mem_cons_of_mem _ hp, hcp⟩, le_trans (Nat.le_add_right _ _) hge, ?_⟩
          simp only [totalLen, List.map_cons, List.sum_cons] at hlt ⊢
          omega

/-- C1: every highlight pass walks the token stream in emission order with
a cursor that starts at the pass's starting position (the region's start
`lineStart` for `highlight_line`; the computed start index `adjStart` for
`highlight_area`) and advances by each token's text length; each
non-sentinel token is tagged over exactly its `[cursor-before,
cursor-after)` range, and sentinel tokens apply no tag but still advance
the cursor (`walkCells` is exactly that description, built from
`tokenSpans`). -/
theorem c1_highlight_pass_token_walk
    (tagNames : List String) (lineStart lineLen spanStart spanEnd adjStart : Nat)
    (toks : List (String × String)) (st : TagState) :
    highlightLine tagNames lineStart lineLen toks st =
      removeTokenTags tagNames lineStart (lineStart + lineLen) st ++ walkCells lineStart toks
    ∧ highlightArea tagNames spanStart spanEnd adjStart toks st =
      removeTokenTags tagNames spanStart spanEnd st ++ walkCells adjStart toks := by
  constructor
  · exact applyTokens_eq_append toks lineStart _
  · exact applyTokens_eq_append toks adjStart _

/-- C2: a highlight pass removes only highlight-family (`Token`-prefixed)
tags and only inside the span `[a, b)`: any cell of a non-family tag (for
example `"sel"`) and any cell outside the span is tagged after the pass
iff it was tagged before.  The hypotheses state the pygments collaborator
guarantees: every emitted kind renders as a `Token`-prefixed string, and
the emitted texts cover at most the pass's span. -/
theorem c2_pass_preserves_foreign_tags
    (tagNames : List String) (a b cursor : Nat)
    (toks : List (String × String)) (st : TagState)
    (h1 : ∀ p ∈ toks, isTokenTag p.1 = true)
    (h2 : a ≤ cursor) (h3 : cursor + totalLen toks ≤ b)
    (t : String) (pos : Nat)
    (hout : isTokenTag t = false ∨ pos < a ∨ b ≤ pos) :
    (t, pos) ∈ highlightPass tagNames a b cursor toks st ↔ (t, pos) ∈ st := by
  rw [highlightPass, applyTokens_eq_append, List.mem_append, mem_removeTokenTags]
  constructor
  · rintro (⟨hst, _⟩ | hwalk)
    · exact hst
    · obtain ⟨⟨p, hp, hcp⟩, hge, hlt⟩ := mem_walkCells toks cursor (t, pos) hwalk
      rcases hout with hnt | hlo | hhi
      · exact absurd (hcp ▸ h1 p hp) (by simp [hnt])
      · omega
      · omega
  · intro hst
    left
    refine ⟨hst, ?_⟩
    rintro ⟨_, htok, hge, hlt⟩
    rcases hout with hnt | hlo | hhi
    · simp [hnt] at htok
    · omega
    · omega

theorem highlightPass_mem_idem
    (tagNames : List String) (a b cursor : Nat)
    (toks : List (String × String)) (st : TagState) (c : String × Nat) :
    c ∈ highlightPass tagNames a b cursor toks (highlightPass tagNames a b cursor toks st) ↔
      c ∈ highlightPass tagNames a b cursor toks st := by
  simp only [highlightPass, applyTokens_eq_append, List.mem_append, mem_removeTokenTags]
  constructor
  · rintro (⟨⟨hst, hnot⟩ | hwalk, _⟩ | hwalk)
    · exact Or.inl ⟨hst, hnot⟩
    · exact Or.inr hwalk
    · exact Or.inr hwalk
  · rintro (⟨hst, hnot⟩ | hwalk)
    · exact Or.inl ⟨Or.inl ⟨hst, hnot⟩, hnot⟩
    · exact Or.inr hwalk

/-- C9: running a highlight pass twice in succession over the same region
of an unchanged buffer with the same lexer (hence the same token stream)
tags exactly the same set of cells as running it once, for both the
single-line and the area pass. -/
theorem c9_highlight_pass_idempotent
    (tagNames : List String) (lineStart lineLen spanStart spanEnd adjStart : Nat)
    (toks : List (String × String)) (st : TagState) (c : String × Nat) :
    (c ∈ highlightLine tagNames lineStart lineLen toks
        (highlightLine tagNames lineStart lineLen toks st) ↔
      c ∈ highlightLine tagNames lineStart lineLen toks st)
    ∧ (c ∈ highlightArea tagNames spanStart spanEnd adjStart toks
        (highlightArea tagNames spanStart spanEnd adjStart toks st) ↔
      c ∈ highlightArea tagNames spanStart spanEnd adjStart toks st) :=
  ⟨highlightPass_mem_idem _ _ _ _ _ _ _, highlightPass_mem_idem _ _ _ _ _ _ _⟩

theorem c2_pass_preserves_foreign_tags_witness :
    (∀ p ∈ ([("Token.Keyword", "def"), ("Token.Text", " x")] : List (String × String)),
        isTokenTag p.1 = true)
    ∧ 10 ≤ 10
    ∧ 10 + totalLen [("Token.Keyword", "def"), ("Token.Text", " x")] ≤ 15
    ∧ (("sel", 12) ∈ highlightPass ["Token.Keyword", "sel"] 10 15 10
          [("Token.Keyword", "def"), ("Token.Text", " x")] [("sel", 12), ("Token.Keyword", 3)] ↔
        ("sel", 12) ∈ ([("sel", 12), ("Token.Keyword", 3)] : TagState)) :=
  ⟨by decide, by decide, by decide,
    c2_pass_preserves_foreign_tags _ _ _ _ _ _ (by decide) (by decide) (by decide)
      "sel" 12 (Or.inl (by decide))⟩

/-!
## The edit interceptor `_cmd_proxy` (`codeview.py` lines 181-211)

`_cmd_proxy` receives the Tcl command name and its raw argument strings.
For a mutating command it first resolves the line number of the start
index (and, when exactly three arguments are present, of the end index)
through the Tk collaborator, then forwards the command to the renamed
original widget command.  We model the Tk index resolution as an
environment `resolve : String → Nat` giving the line number
`int(str(index(arg)).split(".")[0])` of each raw index argument, and the
forwarded call's outcome as an `Except` value: `.error e` stands for a
`TclError` with message `e`.
-/

/-- A dirty-region highlight call or the content-changed notification
raised by `_cmd_proxy`; `highlightLineAt n` stands for
`highlight_line(f"{n}.0")` and `highlightAreaAt a b` for
`highlight_area(a, b)`. -/
inductive Effect where
  | highlightLineAt (line : Nat)
  | highlightAreaAt (startLine endLine : Nat)
  | contentChanged
deriving DecidableEq

instance {α β : Type} [DecidableEq α] [DecidableEq β] : DecidableEq (Except α β) := fun a b =>
  match a, b with
  | .ok x, .ok y =>
      if h : x = y then .isTrue (congrArg Except.ok h)
      else .isFalse (fun hh => h (Except.ok.inj hh))
  | .error x, .error y =>
      if h : x = y then .isTrue (congrArg Except.error h)
      else .isFalse (fun hh => h (Except.error.inj hh))
  | .ok _, .error _ => .isFalse (fun hh => Except.noConfusion hh)
  | .error _, .ok _ => .isFalse (fun hh => Except.noConfusion hh)

/-- Result and side effects of one `_cmd_proxy` invocation. -/
structure ProxyOut where
  result : Except String String
  effects : List Effect
deriving DecidableEq

/-- Whether `needle` is a leading segment of `hay`. -/
def charsStartWith (hay needle : List Char) : Bool :=
  hay.take needle.length == needle

/-- Whether `needle` occurs contiguously anywhere in `hay`. -/
def charsContain (hay needle : List Char) : Bool :=
  match hay with
  | [] => needle.isEmpty
  | _ :: t => charsStartWith hay needle || charsContain t needle

/-- Python's substring test `needle in haystack`. -/
def pyContains (haystack needle : String) : Bool :=
  charsContain haystack.data needle.data

/-- `text.count("\n")`: the number of newlines in a Python string. -/
def countNewlines (text : String) : Nat :=
  text.data.count '\n'

/-- The benign-error test of `_cmd_proxy` (`codeview.py` lines 190-192):
a `TclError` whose message contains `tagged with "sel"` (no active
selection) or `nothing to` (nothing to undo/redo) is suppressed. -/
def isBenignError (e : String) : Bool :=
  pyContains e "tagged with \"sel\"" || pyContains e "nothing to"

/-- Shallow embedding of `_cmd_proxy` (`codeview.py` lines 181-211). -/
def cmdProxy (resolve : String → Nat) (command : String) (args : List String)
    (bufResult : Except String String) : ProxyOut :=
  let startLine := resolve (args.headD "")
  let endLine := if args.length = 3 then resolve (args.getD 1 "") - 1 else startLine
  match bufResult with
  | .error e => if isBenignError e then ⟨.ok "", []⟩ else ⟨.error e, []⟩
  | .ok res =>
      if command = "insert" then
        let sl := if args.headD "" = "insert" then startLine else startLine - 1
        let lines := countNewlines (args.getD 1 "")
        let h := if lines = 1 then Effect.highlightLineAt sl
                 else Effect.highlightAreaAt sl (sl + lines)
        ⟨.ok res, [h, .contentChanged]⟩
      else if command = "replace" ∨ command = "delete" then
        let h := if startLine = endLine then Effect.highlightLineAt startLine
                 else Effect.highlightAreaAt startLine endLine
        ⟨.ok res, [h, .contentChanged]⟩
      else ⟨.ok res, []⟩

/-- Interpreting an effect list over the tag overlay: fold each effect's
action on the state. -/
def runEffects (interp : Effect → TagState → TagState) (st : TagState)
    (effs : List Effect) : TagState :=
  effs.foldl (fun s e => interp e s) st

/-- C3 counterexample: the claim that every single-line insert yields
`Line(n)` with `n` the pre-forward line of the insertion point is false.
Inserting the newline-free (hence single-line) text `"abc"` at line 5 goes
through the `highlight_area` branch, yielding the range region
`Range(5, 5)` rather than `Line(5)` (the `Line` branch is taken only when
the inserted text contains exactly one newline); and inserting `"x\n"` at
the raw index `"3.0"` (line 3, not the `insert` mark) yields `Line(2)`,
not `Line(3)`, because the proxy decrements the resolved line for any
position argument other than the literal mark `"insert"`. -/
theorem c3_insert_region_counterexample :
    countNewlines "abc" = 0
    ∧ (cmdProxy (fun _ => 5) "insert" ["insert", "abc"] (.ok "")).effects
        = [Effect.highlightAreaAt 5 5, Effect.contentChanged]
    ∧ Effect.highlightAreaAt 5 5 ≠ Effect.highlightLineAt 5
    ∧ (cmdProxy (fun _ => 3) "insert" ["3.0", "x\n"] (.ok "")).effects
        = [Effect.highlightLineAt 2, Effect.contentChanged]
    ∧ Effect.highlightLineAt 2 ≠ Effect.highlightLineAt 3 := by decide

/-- C3 amended: for a successful insert of `text` at position argument
`posArg`, the proxy takes `n` to be the resolved pre-forward line of
`posArg` when `posArg` is the literal mark `"insert"` and that line minus
one otherwise; with `k` the number of newlines in `text`, the region is
`Line(n)` when `k = 1` and `Range(n, n + k)` for every other `k`
(including the degenerate single-line `Range(n, n)` when `k = 0`); a
content-changed notification follows. -/
theorem c3_insert_region_amended (resolve : String → Nat) (posArg text res : String) :
    (cmdProxy resolve "insert" [posArg, text] (.ok res)).effects =
      [(if countNewlines text = 1
        then Effect.highlightLineAt
          (if posArg = "insert" then resolve posArg else resolve posArg - 1)
        else Effect.highlightAreaAt
          (if posArg = "insert" then resolve posArg else resolve posArg - 1)
          ((if posArg = "insert" then resolve posArg else resolve posArg - 1)
            + countNewlines text)),
       Effect.contentChanged] := by
  by_cases h1 : posArg = "insert" <;> by_cases h2 : countNewlines text = 1 <;>
    simp [cmdProxy, h1, h2]

/-- C4 counterexample: the claim that a delete/replace spanning several
lines yields `Range(start_line, end_line)` and a same-line one yields
`Line(n)` is false.  Deleting from `"2.0"` (line 2) to `"4.3"` (line 4)
passes only two arguments, so the proxy never consults the end index and
yields `Line(2)`, not `Range(2, 4)`; and replacing `"2.0"` to `"2.5"`
(both on line 2) computes `end_line = 2 - 1 = 1 ≠ 2` and yields the
reversed `Range(2, 1)`, not `Line(2)`. -/
theorem c4_delete_replace_region_counterexample :
    (cmdProxy (fun s => if s = "2.0" then 2 else 4) "delete" ["2.0", "4.3"] (.ok "")).effects
        = [Effect.highlightLineAt 2, Effect.contentChanged]
    ∧ Effect.highlightLineAt 2 ≠ Effect.highlightAreaAt 2 4
    ∧ (cmdProxy (fun _ => 2) "replace" ["2.0", "2.5", "xyz"] (.ok "")).effects
        = [Effect.highlightAreaAt 2 1, Effect.contentChanged]
    ∧ Effect.highlightAreaAt 2 1 ≠ Effect.highlightLineAt 2 := by decide

/-- C4 amended: the end line is consulted only when exactly three
arguments are passed (the replace form).  A successful delete always
yields `Line(start_line)`; a successful replace computes
`end_line = (line of the end index) - 1` and yields `Line(start_line)`
when `start_line = end_line` (the end index resolves to the line directly
after the start) and `Range(start_line, end_line)` otherwise; a
content-changed notification follows. -/
theorem c4_delete_replace_region_amended (resolve : String → Nat) (i1 i2 text res : String) :
    (cmdProxy resolve "delete" [i1, i2] (.ok res)).effects
        = [Effect.highlightLineAt (resolve i1), Effect.contentChanged]
    ∧ (cmdProxy resolve "delete" [i1] (.ok res)).effects
        = [Effect.highlightLineAt (resolve i1), Effect.contentChanged]
    ∧ (cmdProxy resolve "replace" [i1, i2, text] (.ok res)).effects
        = [(if resolve i1 = resolve i2 - 1
            then Effect.highlightLineAt (resolve i1)
            else Effect.highlightAreaAt (resolve i1) (resolve i2 - 1)),
           Effect.contentChanged] := by
  refine ⟨by simp [cmdProxy], by simp [cmdProxy], ?_⟩
  by_cases h : resolve i1 = resolve i2 - 1 <;> simp [cmdProxy, h]

/-- C5: for every operation forwarded by the proxy, a buffer `TclError`
whose message matches the no-active-selection class (contains
`tagged with "sel"`) or the nothing-to-undo/redo class (contains
`nothing to`) is suppressed and an empty result is returned; every other
buffer error propagates unchanged to the caller. -/
theorem c5_benign_error_classification (resolve : String → Nat) (command : String)
    (args : List String) (e : String) :
    cmdProxy resolve command args (.error e) =
      if pyContains e "tagged with \"sel\"" || pyContains e "nothing to"
      then ⟨.ok "", []⟩ else ⟨.error e, []⟩ := rfl

/-- C10: on the suppressed-error path the proxy returns the empty result
immediately: no highlight pass runs, no content-changed notification is
raised (the effect list is empty), and interpreting the (empty) effect
list over any tag overlay leaves the overlay exactly as it was. -/
theorem c10_suppressed_error_atomic (resolve : String → Nat) (command : String)
    (args : List String) (e : String) (interp : Effect → TagState → TagState)
    (st : TagState) (h : isBenignError e = true) :
    (cmdProxy resolve command args (.error e)).result = .ok ""
    ∧ (cmdProxy resolve command args (.error e)).effects = []
    ∧ runEffects interp st (cmdProxy resolve command args (.error e)).effects = st := by
  simp [cmdProxy, h, runEffects]

theorem c10_suppressed_error_atomic_witness :
    isBenignError "nothing to undo" = true
    ∧ ((cmdProxy (fun _ => 1) "delete" ["sel.first", "sel.last"]
          (.error "nothing to undo")).result = .ok ""
      ∧ (cmdProxy (fun _ => 1) "delete" ["sel.first", "sel.last"]
          (.error "nothing to undo")).effects = []
      ∧ runEffects (fun _ s => s) [("sel", 3)]
          (cmdProxy (fun _ => 1) "delete" ["sel.first", "sel.last"]
            (.error "nothing to undo")).effects = [("sel", 3)]) :=
  ⟨by decide,
    c10_suppressed_error_atomic (fun _ => 1) "delete" ["sel.first", "sel.last"]
      "nothing to undo" (fun _ s => s) [("sel", 3)] (by decide)⟩

/-!
## The color-scheme resolver (`schemeparser.py`)

A TOML table is modelled as an association list with unique keys, in
insertion order; values are strings or integers.  `dictGet` is Python's
`dict.get`, `dictSet`/`dictUpdate` follow Python's `dict.update`
semantics (existing keys are overwritten in place, new keys appended).
-/

/-- A TOML scalar value (`str | int` in the source's annotations). -/
inductive TomlVal where
  | str (s : String)
  | int (n : Int)
deriving DecidableEq

/-- A flat TOML table. -/
abbrev Tbl := List (String × TomlVal)

/-- A color scheme: a table of tables. -/
abbrev Scheme := List (String × Tbl)

/-- The resolved tag table: token kind → optional style value (a `none`
value is an explicitly-unset entry, indistinguishable in effect from an
absent key). -/
abbrev TagStyles := List (String × Option TomlVal)

/-- Python `d.get(k)`. -/
def dictGet {α : Type} (d : List (String × α)) (k : String) : Option α :=
  match d with
  | [] => none
  | (k', v) :: rest => if k' = k then some v else dictGet rest k

/-- Python `d[k] = v`: overwrite in place or append. -/
def dictSet {α : Type} (d : List (String × α)) (k : String) (v : α) :
    List (String × α) :=
  match d with
  | [] => [(k, v)]
  | (k', v') :: rest => if k' = k then (k, v) :: rest else (k', v') :: dictSet rest k v

/-- Python `d.update(e)`. -/
def dictUpdate {α : Type} (d e : List (String × α)) : List (String × α) :=
  e.foldl (fun acc kv => dictSet acc kv.1 kv.2) d

/-- `a if a is not None else b` on optional values. -/
def optOr {α : Type} (a b : Option α) : Option α :=
  match a with
  | some v => some v
  | none => b

/-- `_editor_keys_map` (`schemeparser.py` lines 3-13). -/
def editorKeysMap : List (String × String) :=
  [("background", "bg"), ("foreground", "fg"), ("selectbackground", "select_bg"),
   ("selectforeground", "select_fg"), ("inactiveselectbackground", "inactive_select_bg"),
   ("insertbackground", "caret"), ("insertwidth", "caret_width"),
   ("borderwidth", "border_width"), ("highlightthickness", "focus_border_width")]

/-- `_extras` (`schemeparser.py` lines 15-18). -/
def extrasMap : List (String × String) :=
  [("Error", "error"), ("Literal.Date", "date")]

/-- `_keywords` (`schemeparser.py` lines 20-27). -/
def keywordsMap : List (String × String) :=
  [("Keyword.Constant", "constant"), ("Keyword.Declaration", "declaration"),
   ("Keyword.Namespace", "namespace"), ("Keyword.Pseudo", "pseudo"),
   ("Keyword.Reserved", "reserved"), ("Keyword.Type", "type")]

/-- `_names` (`schemeparser.py` lines 29-48). -/
def namesMap : List (String × String) :=
  [("Name.Attribute", "attr"), ("Name.Builtin", "builtin"),
   ("Name.Builtin.Pseudo", "builtin_pseudo"), ("Name.Class", "class"),
   ("Name.Constant", "constant"), ("Name.Decorator", "decorator"),
   ("Name.Entity", "entity"), ("Name.Exception", "exception"),
   ("Name.Function", "function"), ("Name.Function.Magic", "magic_function"),
   ("Name.Label", "label"), ("Name.Namespace", "namespace"),
   ("Name.Tag", "tag"), ("Name.Variable", "variable"),
   ("Name.Variable.Class", "class_variable"), ("Name.Variable.Global", "global_variable"),
   ("Name.Variable.Instance", "instance_variable"), ("Name.Variable.Magic", "magic_variable")]

/-- `_strings` (`schemeparser.py` lines 50-63). -/
def stringsMap : List (String × String) :=
  [("Literal.String.Affix", "affix"), ("Literal.String.Backtick", "backtick"),
   ("Literal.String.Char", "char"), ("Literal.String.Delimeter", "delimeter"),
   ("Literal.String.Doc", "doc"), ("Literal.String.Double", "double"),
   ("Literal.String.Escape", "escape"), ("Literal.String.Heredoc", "heredoc"),
   ("Literal.String.Interpol", "interpol"), ("Literal.String.Regex", "regex"),
   ("Literal.String.Single", "single"), ("Literal.String.Symbol", "symbol")]

/-- `_numbers` (`schemeparser.py` lines 65-72). -/
def numbersMap : List (String × String) :=
  [("Literal.Number.Bin", "binary"), ("Literal.Number.Float", "float"),
   ("Literal.Number.Hex", "hex"), ("Literal.Number.Integer", "integer"),
   ("Literal.Number.Integer.Long", "long"), ("Literal.Number.Oct", "octal")]

/-- `_comments` (`schemeparser.py` lines 74-81). -/
def commentsMap : List (String × String) :=
  [("Comment.Hashbang", "hashbang"), ("Comment.Multiline", "multiline"),
   ("Comment.Preproc", "preproc"), ("Comment.PreprocFile", "preprocfile"),
   ("Comment.Single", "single"), ("Comment.Special", "special")]

/-- `_generic` (`schemeparser.py` lines 83-89). -/
def genericMap : List (String × String) :=
  [("Generic.Emph", "emphasis"), ("Generic.Error", "error"),
   ("Generic.Heading", "heading"), ("Generic.Strong", "strong"),
   ("Generic.Subheading", "subheading")]

/-- The inline operator table (`schemeparser.py` lines 146-148). -/
def operatorMap : List (String × String) :=
  [("Operator", "symbol"), ("Operator.Word", "word")]

/-- `_parse_table` (`schemeparser.py` lines 92-109): for each
`(token, key)` of the fixed map, the explicit `source[key]` value or else
the fallback; with no source table, every token gets the fallback when one
is given, and nothing is produced otherwise. -/
def parseTable (source : Option Tbl) (map_ : List (String × String))
    (fallback : Option TomlVal) : TagStyles :=
  match source with
  | some src => map_.map (fun p => (p.1, optOr (dictGet src p.2) fallback))
  | none =>
      match fallback with
      | some fb => map_.map (fun p => (p.1, some fb))
      | none => []

/-- The cross-cutting tags bound directly to `general.*` values
(`schemeparser.py` lines 130-140). -/
def baseTags (general : Tbl) : TagStyles :=
  [("Error", dictGet general "error"),
   ("Escape", dictGet general "escape"),
   ("Punctuation", dictGet general "punctuation"),
   ("Comment", dictGet general "comment"),
   ("Keyword", dictGet general "keyword"),
   ("Keyword.Other", dictGet general "keyword"),
   ("Literal.String", dictGet general "string"),
   ("Literal.String.Other", dictGet general "string"),
   ("Name.Other", dictGet general "name")]

/-- The tag-table computation of `_parse_scheme` (`schemeparser.py` lines
122-154), given the scheme's `general` table. -/
def schemeTags (colorScheme : Scheme) (general : Tbl) : TagStyles :=
  dictUpdate (dictUpdate (dictUpdate (dictUpdate (dictUpdate (dictUpdate (dictUpdate (dictUpdate
    (baseTags general)
    (parseTable (dictGet colorScheme "keyword") keywordsMap (dictGet general "keyword")))
    (parseTable (dictGet colorScheme "name") namesMap (dictGet general "name")))
    (parseTable (dictGet colorScheme "operator") operatorMap none))
    (parseTable (dictGet colorScheme "string") stringsMap (dictGet general "string")))
    (parseTable (dictGet colorScheme "number") numbersMap none))
    (parseTable (dictGet colorScheme "comment") commentsMap (dictGet general "comment")))
    (parseTable (dictGet colorScheme "generic") genericMap none))
    (parseTable (dictGet colorScheme "extras") extrasMap none)

/-- The editor-style table of `_parse_scheme` (`schemeparser.py` lines
113-117). -/
def parseEditor (colorScheme : Scheme) : TagStyles :=
  match dictGet colorScheme "editor" with
  | none => []
  | some ed => editorKeysMap.map (fun p => (p.1, dictGet ed p.2))

/-- `_parse_scheme` (`schemeparser.py` lines 112-156): the missing
`general` table is the fatal assertion `General table must present in
color scheme`. -/
def parseScheme (colorScheme : Scheme) : Except String (TagStyles × TagStyles) :=
  match dictGet colorScheme "general" with
  | none => .error "General table must present in color scheme"
  | some general => .ok (parseEditor colorScheme, schemeTags colorScheme general)

/-- The final style a token kind resolves to: an absent key and a key
explicitly bound to no value both leave the tag style unset. -/
def resolvedStyle (tags : TagStyles) (token : String) : Option TomlVal :=
  (dictGet tags token).join

theorem dictGet_dictSet {α : Type} (d : List (String × α)) (k k' : String) (v : α) :
    dictGet (dictSet d k v) k' = if k = k' then some v else dictGet d k' := by
  induction d with
  | nil => simp [dictSet, dictGet]
  | cons hd tl ih =>
      obtain ⟨k0, v0⟩ := hd
      by_cases hk0k : k0 = k
      · subst hk0k
        by_cases hkk' : k0 = k'
        · subst hkk'; simp [dictSet, dictGet]
        · simp [dictSet, dictGet, hkk']
      · by_cases hk0k' : k0 = k'
        · subst hk0k'
          have hkk0 : ¬ k = k0 := fun hh => hk0k hh.symm
          simp [dictSet, dictGet, hk0k, hkk0]
        · simp [dictSet, dictGet, hk0k, hk0k', ih]

theorem dictGet_eq_none {α : Type} (d : List (String × α)) (k : String)
    (h : k ∉ d.map Prod.fst) : dictGet d k = none := by
  induction d with
  | nil => rfl
  | cons hd tl ih =>
      obtain ⟨k0, v0⟩ := hd
      simp only [List.map_cons, List.mem_cons, not_or] at h
      have hk0 : ¬ k0 = k := fun hh => h.1 hh.symm
      simp [dictGet, hk0, ih h.2]

theorem dictGet_dictUpdate {α : Type} (e : List (String × α)) :
    ∀ (d : List (String × α)) (k : String), (e.map Prod.fst).Nodup →
      dictGet (dictUpdate d e) k = optOr (dictGet e k) (dictGet d k) := by
  induction e with
  | nil => intro d k _; simp [dictUpdate, dictGet, optOr]
  | cons hd tl ih =>
      intro d k hnd
      obtain ⟨k0, v0⟩ := hd
      simp only [List.map_cons, List.nodup_cons] at hnd
      have step : dictUpdate d ((k0, v0) :: tl) = dictUpdate (dictSet d k0 v0) tl := rfl
      rw [step, ih _ k hnd.2, dictGet_dictSet]
      by_cases h : k0 = k
      · subst h
        rw [dictGet_eq_none tl k0 hnd.1]
        simp [dictGet, optOr]
      · simp [dictGet, h, optOr]

theorem dictGet_parseTable_eq_none (s : Option Tbl) (m : List (String × String))
    (f : Option TomlVal) (tok : String) (h : tok ∉ m.map Prod.fst) :
    dictGet (parseTable s m f) tok = none := by
  apply dictGet_eq_none
  cases s with
  | some src => simpa [parseTable, List.map_map, Function.comp] using h
  | none =>
      cases f with
      | some fb => simpa [parseTable, List.map_map, Function.comp] using h
      | none => simp [parseTable]

theorem nodup_keys_parseTable (s : Option Tbl) (m : List (String × String))
    (f : Option TomlVal) (h : (m.map Prod.fst).Nodup) :
    ((parseTable s m f).map Prod.fst).Nodup := by
  cases s with
  | some src => simpa [parseTable, List.map_map, Function.comp] using h
  | none =>
      cases f with
      | some fb => simpa [parseTable, List.map_map, Function.comp] using h
      | none => simp [parseTable]

theorem dictGet_parseTable_mem (s : Option Tbl) (m : List (String × String))
    (f : Option TomlVal) (tok key : String)
    (hnd : (m.map Prod.fst).Nodup) (hmem : (tok, key) ∈ m) :
    dictGet (parseTable s m f) tok =
      match s with
      | some src => some (optOr (dictGet src key) f)
      | none => Option.map some f := by
  induction m with
  | nil => cases hmem
  | cons hd tl ih =>
      obtain ⟨t0, k0⟩ := hd
      simp only [List.map_cons, List.nodup_cons] at hnd
      rcases List.mem_cons.mp hmem with heq | hmem'
      · obtain ⟨h1, h2⟩ := Prod.mk.injEq .. ▸ heq
        subst h1; subst h2
        cases s with
        | some src => simp [parseTable, dictGet]
        | none =>
            cases f with
            | some fb => simp [parseTable, dictGet]
            | none => simp [parseTable, dictGet]
      · have htok : t0 ≠ tok := by
          rintro rfl
          exact hnd.1 (List.mem_map.mpr ⟨(t0, key), hmem', rfl⟩)
        have ihr := ih hnd.2 hmem'
        cases s with
        | some src => simpa [parseTable, dictGet, htok] using ihr
        | none =>
            cases f with
            | some fb => simpa [parseTable, dictGet, htok] using ihr
            | none => simp [parseTable, dictGet]

/-- Evaluating the resolved tag table at a token kind: the category
layers are consulted from the last `tags.update` (extras) back to the
cross-cutting base bindings. -/
theorem dictGet_schemeTags (cs : Scheme) (g : Tbl) (tok : String) :
    dictGet (schemeTags cs g) tok =
      optOr (dictGet (parseTable (dictGet cs "extras") extrasMap none) tok)
      (optOr (dictGet (parseTable (dictGet cs "generic") genericMap none) tok)
      (optOr (dictGet (parseTable (dictGet cs "comment") commentsMap (dictGet g "comment")) tok)
      (optOr (dictGet (parseTable (dictGet cs "number") numbersMap none) tok)
      (optOr (dictGet (parseTable (dictGet cs "string") stringsMap (dictGet g "string")) tok)
      (optOr (dictGet (parseTable (dictGet cs "operator") operatorMap none) tok)
      (optOr (dictGet (parseTable (dictGet cs "name") namesMap (dictGet g "name")) tok)
      (optOr (dictGet (parseTable (dictGet cs "keyword") keywordsMap (dictGet g "keyword")) tok)
        (dictGet (baseTags g) tok)))))))) := by
  rw [schemeTags,
    dictGet_dictUpdate _ _ _ (nodup_keys_parseTable _ _ _ (by decide)),
    dictGet_dictUpdate _ _ _ (nodup_keys_parseTable _ _ _ (by decide)),
    dictGet_dictUpdate _ _ _ (nodup_keys_parseTable _ _ _ (by decide)),
    dictGet_dictUpdate _ _ _ (nodup_keys_parseTable _ _ _ (by decide)),
    dictGet_dictUpdate _ _ _ (nodup_keys_parseTable _ _ _ (by decide)),
    dictGet_dictUpdate _ _ _ (nodup_keys_parseTable _ _ _ (by decide)),
    dictGet_dictUpdate _ _ _ (nodup_keys_parseTable _ _ _ (by decide)),
    dictGet_dictUpdate _ _ _ (nodup_keys_parseTable _ _ _ (by decide))]

theorem optOr_none {α : Type} (a : Option α) : optOr a none = a := by
  cases a <;> rfl

theorem dictGet_baseTags_eq_none (g : Tbl) (tok : String)
    (h : tok ∉ ["Error", "Escape", "Punctuation", "Comment", "Keyword", "Keyword.Other",
      "Literal.String", "Literal.String.Other", "Name.Other"]) :
    dictGet (baseTags g) tok = none := by
  apply dictGet_eq_none
  simpa [baseTags] using h

theorem keywordForeign : ∀ p ∈ keywordsMap,
    p.1 ∉ namesMap.map Prod.fst ∧ p.1 ∉ operatorMap.map Prod.fst ∧
    p.1 ∉ stringsMap.map Prod.fst ∧ p.1 ∉ numbersMap.map Prod.fst ∧
    p.1 ∉ commentsMap.map Prod.fst ∧ p.1 ∉ genericMap.map Prod.fst ∧
    p.1 ∉ extrasMap.map Prod.fst ∧
    p.1 ∉ ["Error", "Escape", "Punctuation", "Comment", "Keyword", "Keyword.Other",
      "Literal.String", "Literal.String.Other", "Name.Other"] := by decide

theorem nameForeign : ∀ p ∈ namesMap,
    p.1 ∉ keywordsMap.map Prod.fst ∧ p.1 ∉ operatorMap.map Prod.fst ∧
    p.1 ∉ stringsMap.map Prod.fst ∧ p.1 ∉ numbersMap.map Prod.fst ∧
    p.1 ∉ commentsMap.map Prod.fst ∧ p.1 ∉ genericMap.map Prod.fst ∧
    p.1 ∉ extrasMap.map Prod.fst ∧
    p.1 ∉ ["Error", "Escape", "Punctuation", "Comment", "Keyword", "Keyword.Other",
      "Literal.String", "Literal.String.Other", "Name.Other"] := by decide

theorem stringForeign : ∀ p ∈ stringsMap,
    p.1 ∉ keywordsMap.map Prod.fst ∧ p.1 ∉ namesMap.map Prod.fst ∧
    p.1 ∉ operatorMap.map Prod.fst ∧ p.1 ∉ numbersMap.map Prod.fst ∧
    p.1 ∉ commentsMap.map Prod.fst ∧ p.1 ∉ genericMap.map Prod.fst ∧
    p.1 ∉ extrasMap.map Prod.fst ∧
    p.1 ∉ ["Error", "Escape", "Punctuation", "Comment", "Keyword", "Keyword.Other",
      "Literal.String", "Literal.String.Other", "Name.Other"] := by decide

theorem commentForeign : ∀ p ∈ commentsMap,
    p.1 ∉ keywordsMap.map Prod.fst ∧ p.1 ∉ namesMap.map Prod.fst ∧
    p.1 ∉ operatorMap.map Prod.fst ∧ p.1 ∉ stringsMap.map Prod.fst ∧
    p.1 ∉ numbersMap.map Prod.fst ∧ p.1 ∉ genericMap.map Prod.fst ∧
    p.1 ∉ extrasMap.map Prod.fst ∧
    p.1 ∉ ["Error", "Escape", "Punctuation", "Comment", "Keyword", "Keyword.Other",
      "Literal.String", "Literal.String.Other", "Name.Other"] := by decide

theorem operatorForeign : ∀ p ∈ operatorMap,
    p.1 ∉ keywordsMap.map Prod.fst ∧ p.1 ∉ namesMap.map Prod.fst ∧
    p.1 ∉ stringsMap.map Prod.fst ∧ p.1 ∉ numbersMap.map Prod.fst ∧
    p.1 ∉ commentsMap.map Prod.fst ∧ p.1 ∉ genericMap.map Prod.fst ∧
    p.1 ∉ extrasMap.map Prod.fst ∧
    p.1 ∉ ["Error", "Escape", "Punctuation", "Comment", "Keyword", "Keyword.Other",
      "Literal.String", "Literal.String.Other", "Name.Other"] := by decide

theorem numberForeign : ∀ p ∈ numbersMap,
    p.1 ∉ keywordsMap.map Prod.fst ∧ p.1 ∉ namesMap.map Prod.fst ∧
    p.1 ∉ operatorMap.map Prod.fst ∧ p.1 ∉ stringsMap.map Prod.fst ∧
    p.1 ∉ commentsMap.map Prod.fst ∧ p.1 ∉ genericMap.map Prod.fst ∧
    p.1 ∉ extrasMap.map Prod.fst ∧
    p.1 ∉ ["Error", "Escape", "Punctuation", "Comment", "Keyword", "Keyword.Other",
      "Literal.String", "Literal.String.Other", "Name.Other"] := by decide

theorem genericForeign : ∀ p ∈ genericMap,
    p.1 ∉ keywordsMap.map Prod.fst ∧ p.1 ∉ namesMap.map Prod.fst ∧
    p.1 ∉ operatorMap.map Prod.fst ∧ p.1 ∉ stringsMap.map Prod.fst ∧
    p.1 ∉ numbersMap.map Prod.fst ∧ p.1 ∉ commentsMap.map Prod.fst ∧
    p.1 ∉ extrasMap.map Prod.fst ∧
    p.1 ∉ ["Error", "Escape", "Punctuation", "Comment", "Keyword", "Keyword.Other",
      "Literal.String", "Literal.String.Other", "Name.Other"] := by decide

/-- Resolution of the keyword subkinds: explicit `keyword` table value,
else `general.keyword`, else unset. -/
theorem resolvedStyle_keyword (cs : Scheme) (g : Tbl) (tok key : String)
    (hmem : (tok, key) ∈ keywordsMap) :
    resolvedStyle (schemeTags cs g) tok =
      optOr ((dictGet cs "keyword").bind (fun t => dictGet t key)) (dictGet g "keyword") := by
  obtain ⟨hn, ho, hs, hnum, hc, hgen, hex, hb⟩ := keywordForeign _ hmem
  rw [resolvedStyle, dictGet_schemeTags,
    dictGet_parseTable_eq_none _ _ _ _ hex,
    dictGet_parseTable_eq_none _ _ _ _ hgen,
    dictGet_parseTable_eq_none _ _ _ _ hc,
    dictGet_parseTable_eq_none _ _ _ _ hnum,
    dictGet_parseTable_eq_none _ _ _ _ hs,
    dictGet_parseTable_eq_none _ _ _ _ ho,
    dictGet_parseTable_eq_none _ _ _ _ hn,
    dictGet_parseTable_mem _ _ _ _ key (by decide) hmem,
    dictGet_baseTags_eq_none g tok hb]
  cases hk : dictGet cs "keyword" with
  | none => cases hgk : dictGet g "keyword" <;> simp [optOr, Option.join]
  | some src => simp [optOr, Option.join]

/-- Resolution of the name subkinds: explicit `name` table value, else
`general.name`, else unset. -/
theorem resolvedStyle_name (cs : Scheme) (g : Tbl) (tok key : String)
    (hmem : (tok, key) ∈ namesMap) :
    resolvedStyle (schemeTags cs g) tok =
      optOr ((dictGet cs "name").bind (fun t => dictGet t key)) (dictGet g "name") := by
  obtain ⟨hkw, ho, hs, hnum, hc, hgen, hex, hb⟩ := nameForeign _ hmem
  rw [resolvedStyle, dictGet_schemeTags,
    dictGet_parseTable_eq_none _ _ _ _ hex,
    dictGet_parseTable_eq_none _ _ _ _ hgen,
    dictGet_parseTable_eq_none _ _ _ _ hc,
    dictGet_parseTable_eq_none _ _ _ _ hnum,
    dictGet_parseTable_eq_none _ _ _ _ hs,
    dictGet_parseTable_eq_none _ _ _ _ ho,
    dictGet_parseTable_mem _ _ _ _ key (by decide) hmem,
    dictGet_parseTable_eq_none _ _ _ _ hkw,
    dictGet_baseTags_eq_none g tok hb]
  cases hk : dictGet cs "name" with
  | none => cases hgk : dictGet g "name" <;> simp [optOr, Option.join]
  | some src => simp [optOr, Option.join]

/-- Resolution of the string subkinds: explicit `string` table value, else
`general.string`, else unset. -/
theorem resolvedStyle_string (cs : Scheme) (g : Tbl) (tok key : String)
    (hmem : (tok, key) ∈ stringsMap) :
    resolvedStyle (schemeTags cs g) tok =
      optOr ((dictGet cs "string").bind (fun t => dictGet t key)) (dictGet g "string") := by
  obtain ⟨hkw, hn, ho, hnum, hc, hgen, hex, hb⟩ := stringForeign _ hmem
  rw [resolvedStyle, dictGet_schemeTags,
    dictGet_parseTable_eq_none _ _ _ _ hex,
    dictGet_parseTable_eq_none _ _ _ _ hgen,
    dictGet_parseTable_eq_none _ _ _ _ hc,
    dictGet_parseTable_eq_none _ _ _ _ hnum,
    dictGet_parseTable_mem _ _ _ _ key (by decide) hmem,
    dictGet_parseTable_eq_none _ _ _ _ ho,
    dictGet_parseTable_eq_none _ _ _ _ hn,
    dictGet_parseTable_eq_none _ _ _ _ hkw,
    dictGet_baseTags_eq_none g tok hb]
  cases hk : dictGet cs "string" with
  | none => cases hgk : dictGet g "string" <;> simp [optOr, Option.join]
  | some src => simp [optOr, Option.join]

/-- Resolution of the comment subkinds: explicit `comment` table value,
else `general.comment`, else unset. -/
theorem resolvedStyle_comment (cs : Scheme) (g : Tbl) (tok key : String)
    (hmem : (tok, key) ∈ commentsMap) :
    resolvedStyle (schemeTags cs g) tok =
      optOr ((dictGet cs "comment").bind (fun t => dictGet t key)) (dictGet g "comment") := by
  obtain ⟨hkw, hn, ho, hs, hnum, hgen, hex, hb⟩ := commentForeign _ hmem
  rw [resolvedStyle, dictGet_schemeTags,
    dictGet_parseTable_eq_none _ _ _ _ hex,
    dictGet_parseTable_eq_none _ _ _ _ hgen,
    dictGet_parseTable_mem _ _ _ _ key (by decide) hmem,
    dictGet_parseTable_eq_none _ _ _ _ hnum,
    dictGet_parseTable_eq_none _ _ _ _ hs,
    dictGet_parseTable_eq_none _ _ _ _ ho,
    dictGet_parseTable_eq_none _ _ _ _ hn,
    dictGet_parseTable_eq_none _ _ _ _ hkw,
    dictGet_baseTags_eq_none g tok hb]
  cases hk : dictGet cs "comment" with
  | none => cases hgk : dictGet g "comment" <;> simp [optOr, Option.join]
  | some src => simp [optOr, Option.join]

/-- Resolution of the operator subkinds: explicit `operator` table value
or unset — no general fallback is consulted. -/
theorem resolvedStyle_operator (cs : Scheme) (g : Tbl) (tok key : String)
    (hmem : (tok, key) ∈ operatorMap) :
    resolvedStyle (schemeTags cs g) tok =
      (dictGet cs "operator").bind (fun t => dictGet t key) := by
  obtain ⟨hkw, hn, hs, hnum, hc, hgen, hex, hb⟩ := operatorForeign _ hmem
  rw [resolvedStyle, dictGet_schemeTags,
    dictGet_parseTable_eq_none _ _ _ _ hex,
    dictGet_parseTable_eq_none _ _ _ _ hgen,
    dictGet_parseTable_eq_none _ _ _ _ hc,
    dictGet_parseTable_eq_none _ _ _ _ hnum,
    dictGet_parseTable_eq_none _ _ _ _ hs,
    dictGet_parseTable_mem _ _ _ _ key (by decide) hmem,
    dictGet_parseTable_eq_none _ _ _ _ hn,
    dictGet_parseTable_eq_none _ _ _ _ hkw,
    dictGet_baseTags_eq_none g tok hb]
  cases hk : dictGet cs "operator" with
  | none => simp [optOr, Option.join]
  | some src => cases hv : dictGet src key <;> simp [optOr, Option.join, hv]

/-- Resolution of the number subkinds: explicit `number` table value or
unset — no general fallback is consulted. -/
theorem resolvedStyle_number (cs : Scheme) (g : Tbl) (tok key : String)
    (hmem : (tok, key) ∈ numbersMap) :
    resolvedStyle (schemeTags cs g) tok =
      (dictGet cs "number").bind (fun t => dictGet t key) := by
  obtain ⟨hkw, hn, ho, hs, hc, hgen, hex, hb⟩ := numberForeign _ hmem
  rw [resolvedStyle, dictGet_schemeTags,
    dictGet_parseTable_eq_none _ _ _ _ hex,
    dictGet_parseTable_eq_none _ _ _ _ hgen,
    dictGet_parseTable_eq_none _ _ _ _ hc,
    dictGet_parseTable_mem _ _ _ _ key (by decide) hmem,
    dictGet_parseTable_eq_none _ _ _ _ hs,
    dictGet_parseTable_eq_none _ _ _ _ ho,
    dictGet_parseTable_eq_none _ _ _ _ hn,
    dictGet_parseTable_eq_none _ _ _ _ hkw,
    dictGet_baseTags_eq_none g tok hb]
  cases hk : dictGet cs "number" with
  | none => simp [optOr, Option.join]
  | some src => cases hv : dictGet src key <;> simp [optOr, Option.join, hv]

/-- Resolution of the generic subkinds: explicit `generic` table value or
unset — no general fallback is consulted. -/
theorem resolvedStyle_generic (cs : Scheme) (g : Tbl) (tok key : String)
    (hmem : (tok, key) ∈ genericMap) :
    resolvedStyle (schemeTags cs g) tok =
      (dictGet cs "generic").bind (fun t => dictGet t key) := by
  obtain ⟨hkw, hn, ho, hs, hnum, hc, hex, hb⟩ := genericForeign _ hmem
  rw [resolvedStyle, dictGet_schemeTags,
    dictGet_parseTable_eq_none _ _ _ _ hex,
    dictGet_parseTable_mem _ _ _ _ key (by decide) hmem,
    dictGet_parseTable_eq_none _ _ _ _ hc,
    dictGet_parseTable_eq_none _ _ _ _ hnum,
    dictGet_parseTable_eq_none _ _ _ _ hs,
    dictGet_parseTable_eq_none _ _ _ _ ho,
    dictGet_parseTable_eq_none _ _ _ _ hn,
    dictGet_parseTable_eq_none _ _ _ _ hkw,
    dictGet_baseTags_eq_none g tok hb]
  cases hk : dictGet cs "generic" with
  | none => simp [optOr, Option.join]
  | some src => cases hv : dictGet src key <;> simp [optOr, Option.join, hv]

/-- Resolution of the extras subkind `Literal.Date`: explicit `extras`
table value or unset — no general fallback is consulted. -/
theorem resolvedStyle_date (cs : Scheme) (g : Tbl) :
    resolvedStyle (schemeTags cs g) "Literal.Date" =
      (dictGet cs "extras").bind (fun t => dictGet t "date") := by
  rw [resolvedStyle, dictGet_schemeTags,
    dictGet_parseTable_mem _ _ _ _ "date" (by decide) (by decide),
    dictGet_parseTable_eq_none _ _ _ _ (by decide),
    dictGet_parseTable_eq_none _ _ _ _ (by decide),
    dictGet_parseTable_eq_none _ _ _ _ (by decide),
    dictGet_parseTable_eq_none _ _ _ _ (by decide),
    dictGet_parseTable_eq_none _ _ _ _ (by decide),
    dictGet_parseTable_eq_none _ _ _ _ (by decide),
    dictGet_parseTable_eq_none _ _ _ _ (by decide),
    dictGet_baseTags_eq_none g _ (by decide)]
  cases hk : dictGet cs "extras" with
  | none => simp [optOr, Option.join]
  | some src => cases hv : dictGet src "date" <;> simp [optOr, Option.join, hv]

/-- Resolution of the extras subkind `Error`: when an `extras` table is
present its (possibly absent) `error` entry overwrites the cross-cutting
`general.error` binding; otherwise `general.error` stands. -/
theorem resolvedStyle_error (cs : Scheme) (g : Tbl) :
    resolvedStyle (schemeTags cs g) "Error" =
      (match dictGet cs "extras" with
       | some ex => dictGet ex "error"
       | none => dictGet g "error") := by
  rw [resolvedStyle, dictGet_schemeTags,
    dictGet_parseTable_mem _ _ _ _ "error" (by decide) (by decide),
    dictGet_parseTable_eq_none _ _ _ _ (by decide),
    dictGet_parseTable_eq_none _ _ _ _ (by decide),
    dictGet_parseTable_eq_none _ _ _ _ (by decide),
    dictGet_parseTable_eq_none _ _ _ _ (by decide),
    dictGet_parseTable_eq_none _ _ _ _ (by decide),
    dictGet_parseTable_eq_none _ _ _ _ (by decide),
    dictGet_parseTable_eq_none _ _ _ _ (by decide)]
  cases hk : dictGet cs "extras" with
  | none => simp [optOr, Option.join, baseTags, dictGet]
  | some src => cases hv : dictGet src "error" <;> simp [optOr, Option.join, hv]

/-- C6 counterexample: the claim that every category falls back to its
`general.<category>` value is false for the operator category.  In a
scheme whose `general` table binds `operator` to `#111111` and that has no
`operator` table, the subkind `Operator` resolves to nothing (the resolver
never consults `general.operator`), not to `#111111`. -/
theorem c6_category_fallback_counterexample :
    ("Operator", "symbol") ∈ operatorMap
    ∧ dictGet ([("operator", TomlVal.str "#111111")] : Tbl) "operator"
        = some (TomlVal.str "#111111")
    ∧ parseScheme [("general", [("operator", TomlVal.str "#111111")])]
        = .ok (parseEditor [("general", [("operator", TomlVal.str "#111111")])],
            schemeTags [("general", [("operator", TomlVal.str "#111111")])]
              [("operator", TomlVal.str "#111111")])
    ∧ resolvedStyle
        (schemeTags [("general", [("operator", TomlVal.str "#111111")])]
          [("operator", TomlVal.str "#111111")]) "Operator" = none
    ∧ (none : Option TomlVal) ≠ some (TomlVal.str "#111111") := by decide

/-- C6 amended: for the keyword, name, string and comment categories each
subkind resolves to the explicit value of the category table when present,
else to the single `general.<category>` value, else stays unset; for the
operator, number, generic and extras categories no general fallback is
consulted — a subkind resolves to the explicit value of the category table
when present and otherwise stays unset — except that the extras subkind
`Error` falls back to the cross-cutting `general.error` binding when the
`extras` table is absent. -/
theorem c6_category_fallback_amended (cs : Scheme) (g : Tbl) :
    (∀ tok key, (tok, key) ∈ keywordsMap →
        resolvedStyle (schemeTags cs g) tok =
          optOr ((dictGet cs "keyword").bind (fun t => dictGet t key)) (dictGet g "keyword"))
    ∧ (∀ tok key, (tok, key) ∈ namesMap →
        resolvedStyle (schemeTags cs g) tok =
          optOr ((dictGet cs "name").bind (fun t => dictGet t key)) (dictGet g "name"))
    ∧ (∀ tok key, (tok, key) ∈ stringsMap →
        resolvedStyle (schemeTags cs g) tok =
          optOr ((dictGet cs "string").bind (fun t => dictGet t key)) (dictGet g "string"))
    ∧ (∀ tok key, (tok, key) ∈ commentsMap →
        resolvedStyle (schemeTags cs g) tok =
          optOr ((dictGet cs "comment").bind (fun t => dictGet t key)) (dictGet g "comment"))
    ∧ (∀ tok key, (tok, key) ∈ operatorMap →
        resolvedStyle (schemeTags cs g) tok =
          (dictGet cs "operator").bind (fun t => dictGet t key))
    ∧ (∀ tok key, (tok, key) ∈ numbersMap →
        resolvedStyle (schemeTags cs g) tok =
          (dictGet cs "number").bind (fun t => dictGet t key))
    ∧ (∀ tok key, (tok, key) ∈ genericMap →
        resolvedStyle (schemeTags cs g) tok =
          (dictGet cs "generic").bind (fun t => dictGet t key))
    ∧ resolvedStyle (schemeTags cs g) "Literal.Date" =
        (dictGet cs "extras").bind (fun t => dictGet t "date")
    ∧ resolvedStyle (schemeTags cs g) "Error" =
        (match dictGet cs "extras" with
         | some ex => dictGet ex "error"
         | none => dictGet g "error") :=
  ⟨fun tok key h => resolvedStyle_keyword cs g tok key h,
   fun tok key h => resolvedStyle_name cs g tok key h,
   fun tok key h => resolvedStyle_string cs g tok key h,
   fun tok key h => resolvedStyle_comment cs g tok key h,
   fun tok key h => resolvedStyle_operator cs g tok key h,
   fun tok key h => resolvedStyle_number cs g tok key h,
   fun tok key h => resolvedStyle_generic cs g tok key h,
   resolvedStyle_date cs g,
   resolvedStyle_error cs g⟩

theorem c6_category_fallback_amended_witness :
    ("Operator", "symbol") ∈ operatorMap
    ∧ resolvedStyle
        (schemeTags [("general", [("operator", TomlVal.str "#111111")])]
          [("operator", TomlVal.str "#111111")]) "Operator"
      = (dictGet ([("general", [("operator", TomlVal.str "#111111")])] : Scheme)
          "operator").bind (fun t => dictGet t "symbol") :=
  ⟨by decide,
    (c6_category_fallback_amended [("general", [("operator", TomlVal.str "#111111")])]
      [("operator", TomlVal.str "#111111")]).2.2.2.2.1 "Operator" "symbol" (by decide)⟩

/-- C7: in a scheme whose `general` table maps `keyword` to `#ff0000` and
that has no `keyword` category table, resolution succeeds and every
keyword subkind of the fixed enumeration resolves to `#ff0000`. -/
theorem c7_keyword_general_fallback (cs : Scheme) (g : Tbl)
    (hg : dictGet cs "general" = some g)
    (hkw : dictGet g "keyword" = some (TomlVal.str "#ff0000"))
    (hnotbl : dictGet cs "keyword" = none)
    (tok key : String) (hmem : (tok, key) ∈ keywordsMap) :
    parseScheme cs = .ok (parseEditor cs, schemeTags cs g)
    ∧ resolvedStyle (schemeTags cs g) tok = some (TomlVal.str "#ff0000") := by
  refine ⟨by rw [parseScheme, hg], ?_⟩
  rw [resolvedStyle_keyword cs g tok key hmem, hnotbl, hkw]
  rfl

theorem c7_keyword_general_fallback_witness :
    dictGet ([("general", [("keyword", TomlVal.str "#ff0000")])] : Scheme) "general"
        = some [("keyword", TomlVal.str "#ff0000")]
    ∧ dictGet ([("keyword", TomlVal.str "#ff0000")] : Tbl) "keyword"
        = some (TomlVal.str "#ff0000")
    ∧ dictGet ([("general", [("keyword", TomlVal.str "#ff0000")])] : Scheme) "keyword" = none
    ∧ ("Keyword.Constant", "constant") ∈ keywordsMap
    ∧ (parseScheme [("general", [("keyword", TomlVal.str "#ff0000")])]
        = .ok (parseEditor [("general", [("keyword", TomlVal.str "#ff0000")])],
            schemeTags [("general", [("keyword", TomlVal.str "#ff0000")])]
              [("keyword", TomlVal.str "#ff0000")])
      ∧ resolvedStyle
          (schemeTags [("general", [("keyword", TomlVal.str "#ff0000")])]
            [("keyword", TomlVal.str "#ff0000")]) "Keyword.Constant"
        = some (TomlVal.str "#ff0000")) :=
  ⟨by decide, by decide, by decide, by decide,
    c7_keyword_general_fallback _ _ (by decide) (by decide) (by decide)
      "Keyword.Constant" "constant" (by decide)⟩

/-- `_builtin_color_schemes` (`codeview.py` line 40). -/
def builtinColorSchemes : List String :=
  ["ayu-dark", "ayu-light", "dracula", "mariana", "monokai"]

/-- Modelled from the spec: the bundled color-scheme definitions
(`colorschemes/<name>.toml`, loaded by `_set_color_scheme` but not present
under `src/`); per the spec each bundled definition is a valid scheme
containing the required `general` table. -/
def builtinScheme (_ : String) : Scheme := [("general", [])]

/-- `_set_color_scheme` (`codeview.py` lines 265-277): a recognized
builtin name and `None` load a bundled scheme; any other string reaches
the `isinstance(color_scheme, dict)` assertion and fails; a dictionary is
resolved by `_parse_scheme`, which fails when `general` is absent. -/
def setColorScheme (colorScheme : Option (String ⊕ Scheme)) :
    Except String (TagStyles × TagStyles) :=
  match colorScheme with
  | some (Sum.inl name) =>
      if builtinColorSchemes.contains name then parseScheme (builtinScheme name)
      else .error "Must be a dictionary or a built-in color scheme"
  | none => parseScheme (builtinScheme "dracula")
  | some (Sum.inr s) => parseScheme s

theorem dictGet_builtinScheme (name : String) :
    dictGet (builtinScheme name) "general" = some [] := rfl

/-- C8: scheme resolution fails — with no partial or default recovery —
exactly when the scheme is a string name outside the builtin set or a
dictionary lacking a `general` table; builtin names and the `None`
default always resolve. -/
theorem c8_fatal_configuration_errors (input : Option (String ⊕ Scheme)) :
    (∃ e, setColorScheme input = .error e) ↔
      ((∃ name, input = some (Sum.inl name) ∧ builtinColorSchemes.contains name = false)
        ∨ (∃ s, input = some (Sum.inr s) ∧ dictGet s "general" = none)) := by
  cases input with
  | none => simp [setColorScheme, parseScheme, dictGet_builtinScheme]
  | some v =>
      cases v with
      | inl name =>
          by_cases h : name ∈ builtinColorSchemes
          · have hb : builtinColorSchemes.contains name = true := by simpa using h
            simp [setColorScheme, hb, h, parseScheme, dictGet_builtinScheme]
          · have hb : builtinColorSchemes.contains name = false := by simpa using h
            simp [setColorScheme, hb, h]
      | inr s =>
          cases hg : dictGet s "general" with
          | none => simp [setColorScheme, parseScheme, hg]
          | some g => simp [setColorScheme, parseScheme, hg]

end Chlorophyll
